import Mathlib

/-!
Verification of the core concurrency-control and buffer-management
subsystems of the BusTub-style storage engine in this repository.

The development shallowly embeds:
* `LockManager::IsLockCompatible` (lock_manager.h),
* `BufferPoolManagerInstance` operations (buffer_pool_manager.cpp):
  `NewPgImp`, `UnpinPgImp`, `DeletePgImp`, `AllocatePage`, `find_replace`,
* the lock-acquisition logic of `UpdateExecutor::Next` (update_executor.cpp)
  and `InsertExecutor::Next` (insert_executor.cpp).

Machine integers are modelled as `Int`/`Nat` (no overflow is reachable in
the quantities the claims speak about); the page data buffer is modelled
as an opaque byte list, which the buffer pool never interprets.
-/

namespace BusTub

/-- Lock modes supported by the lock manager (`LockManager::LockMode`). -/
inductive LockMode where
  | SHARED
  | EXCLUSIVE
deriving DecidableEq, Repr

/-- One entry of a per-RID lock request queue (`LockManager::LockRequest`):
transaction id, requested mode, and whether the request has been granted. -/
structure LockRequest where
  txn_id : Int
  lock_mode : LockMode
  granted : Bool
deriving DecidableEq, Repr

/-- Shallow embedding of `LockManager::IsLockCompatible`
(lock_manager.h, lines 160-177).  The C++ walks the queue in arrival
order; at the first request with the same transaction id it returns
`true`; otherwise each earlier request must be granted and, unless both
that request and the checked one are non-EXCLUSIVE, the scan fails. -/
def IsLockCompatible : List LockRequest → LockRequest → Bool
  | [], _ => true
  | lock_request :: rest, to_check_request =>
    if lock_request.txn_id = to_check_request.txn_id then
      true
    else
      let isCompatible :=
        lock_request.granted &&
          (if lock_request.lock_mode = LockMode.EXCLUSIVE then false
           else !(to_check_request.lock_mode = LockMode.EXCLUSIVE : Bool))
      if isCompatible then IsLockCompatible rest to_check_request else false

/-- The requests the C++ scan actually examines before stopping: the
longest prefix of the queue containing no request of the checked
transaction. -/
def examinedRequests (q : List LockRequest) (r : LockRequest) : List LockRequest :=
  q.takeWhile (fun a => a.txn_id != r.txn_id)

theorem isLockCompatible_iff_scanned (q : List LockRequest) (r : LockRequest) :
    IsLockCompatible q r = true ↔
      ∀ x ∈ examinedRequests q r,
        x.granted = true ∧ x.lock_mode ≠ LockMode.EXCLUSIVE ∧
          r.lock_mode ≠ LockMode.EXCLUSIVE := by
  induction q with
  | nil => simp [IsLockCompatible, examinedRequests]
  | cons x rest ih =>
    by_cases hx : x.txn_id = r.txn_id
    · simp [IsLockCompatible, examinedRequests, hx, List.takeWhile_cons]
    · simp only [IsLockCompatible, examinedRequests, List.takeWhile_cons, hx,
        if_false, bne_iff_ne, ne_eq, not_false_eq_true, if_true] at *
      by_cases hg : x.granted
      · by_cases hxe : x.lock_mode = LockMode.EXCLUSIVE
        · simp only [hg, hxe, if_true, Bool.and_false, if_false]
          constructor
          · intro h; exact absurd h (by simp)
          · intro h
            have := (h x (by simp)).2.1
            exact absurd hxe this
        · by_cases hre : r.lock_mode = LockMode.EXCLUSIVE
          · have hb : (!decide (r.lock_mode = LockMode.EXCLUSIVE)) = false := by
              simp [hre]
            simp only [hg, if_neg hxe, hb, Bool.and_false, if_false]
            constructor
            · intro h; exact absurd h (by simp)
            · intro h
              exact absurd hre (h x (by simp)).2.2
          · simp only [hg, if_neg hxe, decide_eq_true_eq]
            have hb : (!decide (r.lock_mode = LockMode.EXCLUSIVE)) = true := by
              simp [hre]
            simp only [hb, Bool.and_true, if_true]
            rw [ih]
            constructor
            · intro h y hy
              rcases List.mem_cons.mp hy with rfl | hy'
              · exact ⟨hg, hxe, hre⟩
              · exact h y hy'
            · intro h y hy
              exact h y (List.mem_cons_of_mem _ hy)
      · simp only [Bool.not_eq_true] at hg
        simp only [hg, Bool.false_and, if_false]
        constructor
        · intro h; exact absurd h (by simp)
        · intro h
          have := (h x (by simp)).1
          simp [hg] at this

/-- C1: for every lock request queue `q` and every request `r` present in
`q`, `IsLockCompatible q r` returns `true` iff every request the arrival
scan examines before reaching `r`'s transaction (i.e. every request
preceding `r` up to the scan stop at the first same-transaction entry) is
granted and neither it nor `r` is EXCLUSIVE. -/
theorem isLockCompatible_correct (q : List LockRequest) (r : LockRequest)
    (hr : r ∈ q) :
    IsLockCompatible q r = true ↔
      ∀ x ∈ examinedRequests q r,
        x.granted = true ∧ x.lock_mode ≠ LockMode.EXCLUSIVE ∧
          r.lock_mode ≠ LockMode.EXCLUSIVE :=
  isLockCompatible_iff_scanned q r

/-- Witness for C1 at a concrete two-element queue. -/
theorem isLockCompatible_correct_witness :
    (⟨2, LockMode.SHARED, false⟩ : LockRequest) ∈
        ([⟨1, LockMode.SHARED, true⟩, ⟨2, LockMode.SHARED, false⟩] :
          List LockRequest) ∧
      (IsLockCompatible
            [⟨1, LockMode.SHARED, true⟩, ⟨2, LockMode.SHARED, false⟩]
            ⟨2, LockMode.SHARED, false⟩ = true ↔
        ∀ x ∈ examinedRequests
            [⟨1, LockMode.SHARED, true⟩, ⟨2, LockMode.SHARED, false⟩]
            ⟨2, LockMode.SHARED, false⟩,
          x.granted = true ∧ x.lock_mode ≠ LockMode.EXCLUSIVE ∧
            (⟨2, LockMode.SHARED, false⟩ : LockRequest).lock_mode ≠
              LockMode.EXCLUSIVE) :=
  ⟨by decide,
   isLockCompatible_correct _ _ (by decide)⟩

/-! ## Buffer pool manager instance (buffer_pool_manager.cpp) -/

/-- Sentinel `INVALID_PAGE_ID` from common/config.h. -/
def INVALID_PAGE_ID : Int := -1

/-- One frame slot of the buffer pool (`Page`): recorded page id, the raw
byte buffer (opaque to the buffer pool), pin count and dirty bit. -/
structure Page where
  page_id : Int
  data : List Nat
  pin_count : Nat
  is_dirty : Bool
deriving DecidableEq, Repr

instance : Inhabited Page := ⟨⟨INVALID_PAGE_ID, [], 0, false⟩⟩

/-- Lookup in the `page_table_` association (page_id → frame_id),
modelling `std::unordered_map::find`. -/
def lookupPT : List (Int × Nat) → Int → Option Nat
  | [], _ => none
  | (k, v) :: rest, pid => if k = pid then some v else lookupPT rest pid

/-- Erasure from `page_table_`, modelling `std::unordered_map::erase`. -/
def erasePT : List (Int × Nat) → Int → List (Int × Nat)
  | [], _ => []
  | (k, v) :: rest, pid =>
    if k = pid then erasePT rest pid else (k, v) :: erasePT rest pid

/-- Insert-or-assign into `page_table_`, modelling
`page_table_[pid] = fid`. -/
def insertPT : List (Int × Nat) → Int → Nat → List (Int × Nat)
  | [], pid, fid => [(pid, fid)]
  | (k, v) :: rest, pid, fid =>
    if k = pid then (k, fid) :: rest else (k, v) :: insertPT rest pid fid

/-- The scan in `find_replace` that looks for a page_table entry mapped to
the victim frame (`for (const auto &p : page_table_) ... if (fid == *frame_id)`).
The C++ signals absence with the sentinel `-1`; we model it as `Option`. -/
def findPidOfFrame : List (Int × Nat) → Nat → Option Int
  | [], _ => none
  | (k, v) :: rest, fid => if v = fid then some k else findPidOfFrame rest fid

/-- State of one `BufferPoolManagerInstance`.  `pages` is the frame array
(`pages_`, length `pool_size_`); `disk_writes` is the log of
`DiskManager::WritePage` calls (most recent first) and `deallocated` the
log of `DiskManager::DeallocatePage` calls.  The LRU replacer is modelled
from the spec as the list of tracked frames, least recently unpinned
first. -/
structure BPMState where
  num_instances : Nat
  instance_index : Nat
  next_page_id : Int
  pages : List Page
  page_table : List (Int × Nat)
  free_list : List Nat
  replacer : List Nat
  disk_writes : List (Int × List Nat)
  deallocated : List Int
deriving DecidableEq, Repr

/-- Modelled from the spec: `LRUReplacer::Victim` removes and returns the
least-recently-unpinned frame, NONE if empty (lru_replacer.cpp is not in
the sources; §4.1 of the spec).  With the least recent at the head of our
list, `Victim` takes the head. -/
def replVictim (r : List Nat) : Option Nat := r.head?

/-- Modelled from the spec: `LRUReplacer::Pin` removes the frame from LRU
tracking; idempotent (§4.1). -/
def replPin (r : List Nat) (fid : Nat) : List Nat := r.filter (fun f => f ≠ fid)

/-- Modelled from the spec: `LRUReplacer::Unpin` inserts the frame as most
recently used if not already present; idempotent (§4.1). -/
def replUnpin (r : List Nat) (fid : Nat) : List Nat :=
  if fid ∈ r then r else r ++ [fid]

/-- Shallow embedding of `BufferPoolManagerInstance::find_replace`
(buffer_pool_manager.cpp, lines 237-273).  Free list first (head);
otherwise the replacer's victim: if some page_table entry maps to the
victim frame, flush the frame when dirty (also resetting its pin count,
as the C++ does) and erase the page_table entry keyed by the frame's
recorded page id; returns `none` iff both sources are empty. -/
def find_replace (s : BPMState) : Option Nat × BPMState :=
  match s.free_list with
  | fid :: rest => (some fid, { s with free_list := rest })
  | [] =>
    match replVictim s.replacer with
    | none => (none, s)
    | some fid =>
      let s1 := { s with replacer := s.replacer.tail }
      match findPidOfFrame s1.page_table fid with
      | none => (some fid, s1)
      | some _replace_page_id =>
        let pg := s1.pages.getD fid default
        let s2 :=
          if pg.is_dirty then
            { s1 with
                disk_writes := (pg.page_id, pg.data) :: s1.disk_writes,
                pages := s1.pages.set fid { pg with pin_count := 0 } }
          else s1
        (some fid, { s2 with page_table := erasePT s2.page_table pg.page_id })

/-- The all-frames-pinned scan at the top of `NewPgImp` (`is_all`):
true iff no frame has `pin_count == 0`. -/
def allPinned (pages : List Page) : Bool :=
  pages.all (fun p => p.pin_count ≠ 0)

/-- Shallow embedding of `BufferPoolManagerInstance::AllocatePage`
(lines 226-231): return the current `next_page_id_` and advance it by
`num_instances_`. -/
def AllocatePage (s : BPMState) : Int × BPMState :=
  (s.next_page_id, { s with next_page_id := s.next_page_id + s.num_instances })

/-- Shallow embedding of `BufferPoolManagerInstance::NewPgImp`
(lines 72-115).  Allocates a page id first; returns `none` if every frame
is pinned or `find_replace` fails; otherwise installs the new page id in
the victim frame (incrementing its pin count, pinning it in the replacer,
clearing the dirty bit — the data buffer is not touched) and in the page
table.  On success returns the new page id and the frame id. -/
def NewPgImp (s : BPMState) : Option (Int × Nat) × BPMState :=
  let alloc := AllocatePage s
  let new_page_id := alloc.1
  let s0 := alloc.2
  if allPinned s0.pages then (none, s0)
  else
    match find_replace s0 with
    | (none, s1) => (none, s1)
    | (some victim_fid, s1) =>
      let pg := s1.pages.getD victim_fid default
      let pg' := { pg with
        page_id := new_page_id,
        pin_count := pg.pin_count + 1,
        is_dirty := false }
      (some (new_page_id, victim_fid),
        { s1 with
            pages := s1.pages.set victim_fid pg',
            replacer := replPin s1.replacer victim_fid,
            page_table := insertPT s1.page_table new_page_id victim_fid })

/-- Shallow embedding of `BufferPoolManagerInstance::UnpinPgImp`
(lines 199-224).  Note the order in the C++: the dirty bit is set from
the `is_dirty` argument *before* the `pin_count == 0` early return. -/
def UnpinPgImp (s : BPMState) (page_id : Int) (is_dirty : Bool) :
    Bool × BPMState :=
  match lookupPT s.page_table page_id with
  | none => (false, s)
  | some unpinned_Fid =>
    let pg := s.pages.getD unpinned_Fid default
    let pg1 := if is_dirty then { pg with is_dirty := true } else pg
    let s1 := { s with pages := s.pages.set unpinned_Fid pg1 }
    if pg1.pin_count = 0 then (false, s1)
    else
      let pg2 := { pg1 with pin_count := pg1.pin_count - 1 }
      let s2 := { s1 with pages := s1.pages.set unpinned_Fid pg2 }
      if pg2.pin_count = 0 then
        (true, { s2 with replacer := replUnpin s2.replacer unpinned_Fid })
      else (true, s2)

/-- Shallow embedding of `BufferPoolManagerInstance::DeletePgImp`
(lines 161-197).  Not resident: `true`.  Resident and pinned: `false`.
Otherwise flush if dirty (via `FlushPgImp`, which writes the frame's
data), deallocate at the disk layer, erase the mapping, reset the frame
metadata, and append the frame to the free list. -/
def DeletePgImp (s : BPMState) (page_id : Int) : Bool × BPMState :=
  match lookupPT s.page_table page_id with
  | none => (true, s)
  | some frame_id =>
    let pg := s.pages.getD frame_id default
    if pg.pin_count > 0 then (false, s)
    else
      let s1 :=
        if pg.is_dirty then
          { s with disk_writes := (page_id, pg.data) :: s.disk_writes }
        else s
      let s2 := { s1 with deallocated := page_id :: s1.deallocated }
      let s3 := { s2 with page_table := erasePT s2.page_table page_id }
      let pg' := { pg with
        is_dirty := false, pin_count := 0, page_id := INVALID_PAGE_ID }
      let s4 := { s3 with pages := s3.pages.set frame_id pg' }
      (true, { s4 with free_list := s4.free_list ++ [frame_id] })

/-- The initial state built by the `BufferPoolManagerInstance` constructor
(lines 23-43): `next_page_id_ = instance_index`, default-constructed
frames, every frame initially on the free list, empty replacer and page
table. -/
def mkBPM (pool_size num_instances instance_index : Nat) : BPMState :=
  { num_instances := num_instances,
    instance_index := instance_index,
    next_page_id := instance_index,
    pages := List.replicate pool_size default,
    page_table := [],
    free_list := List.range pool_size,
    replacer := [],
    disk_writes := [],
    deallocated := [] }

/-- Iterated allocation: the state after `n` calls to `AllocatePage`. -/
def allocSteps (s : BPMState) : Nat → BPMState
  | 0 => s
  | n + 1 => (AllocatePage (allocSteps s n)).2

theorem getD_set_self (l : List Page) (i : Nat) (a : Page) (h : i < l.length) :
    (l.set i a).getD i default = a := by
  simp [List.getD, List.getElem?_set_self h]

theorem lookupPT_insertPT (pt : List (Int × Nat)) (pid : Int) (fid : Nat) :
    lookupPT (insertPT pt pid fid) pid = some fid := by
  induction pt with
  | nil => simp [insertPT, lookupPT]
  | cons p rest ih =>
    by_cases h : p.1 = pid
    · simp [insertPT, lookupPT, h]
    · simp [insertPT, lookupPT, h, ih]

theorem lookupPT_erasePT (pt : List (Int × Nat)) (pid : Int) :
    lookupPT (erasePT pt pid) pid = none := by
  induction pt with
  | nil => simp [erasePT, lookupPT]
  | cons p rest ih =>
    by_cases h : p.1 = pid
    · simp [erasePT, h, ih]
    · simp [erasePT, lookupPT, h, ih]

theorem allocSteps_num_instances (p num idx : Nat) (n : Nat) :
    (allocSteps (mkBPM p num idx) n).num_instances = num := by
  induction n with
  | zero => rfl
  | succ n ih => simpa [allocSteps, AllocatePage] using ih

theorem allocSteps_next_page_id (p num idx : Nat) (n : Nat) :
    (allocSteps (mkBPM p num idx) n).next_page_id = (idx : Int) + n * num := by
  induction n with
  | zero => simp [allocSteps, mkBPM]
  | succ n ih =>
    simp only [allocSteps, AllocatePage]
    rw [ih, allocSteps_num_instances]
    push_cast
    ring

/-- C6: starting from a pool constructed with `(num_instances, instance_index)`,
the n-th `AllocatePage` call (counting from 0) returns
`instance_index + n * num_instances`; that value is congruent to
`instance_index` modulo `num_instances`; and each call advances
`next_page_id` by exactly `num_instances`. -/
theorem allocatePage_interleaves (p num idx n : Nat)
    (h1 : 0 < num) (h2 : idx < num) :
    (AllocatePage (allocSteps (mkBPM p num idx) n)).1 = (idx : Int) + n * num ∧
    (AllocatePage (allocSteps (mkBPM p num idx) n)).1 % (num : Int) = idx ∧
    (AllocatePage (allocSteps (mkBPM p num idx) n)).2.next_page_id =
      (allocSteps (mkBPM p num idx) n).next_page_id + num := by
  have hfst : (AllocatePage (allocSteps (mkBPM p num idx) n)).1 =
      (idx : Int) + n * num := by
    simp [AllocatePage, allocSteps_next_page_id]
  refine ⟨hfst, ?_, ?_⟩
  · rw [hfst]
    have : ((idx : Int) + n * num) % num = (idx : Int) % num := by
      rw [mul_comm]
      exact Int.add_mul_emod_self_left (idx : Int) (num : Int) (n : Int)
    rw [this, Int.emod_eq_of_lt (by exact_mod_cast Nat.zero_le idx)
      (by exact_mod_cast h2)]
  · simp [AllocatePage, allocSteps_num_instances]

/-- Witness for C6 at pool of 2 frames, 4 instances, index 1, third call. -/
theorem allocatePage_interleaves_witness :
    (AllocatePage (allocSteps (mkBPM 2 4 1) 3)).1 = (1 : Int) + 3 * 4 ∧
    (AllocatePage (allocSteps (mkBPM 2 4 1) 3)).1 % (4 : Int) = 1 ∧
    (AllocatePage (allocSteps (mkBPM 2 4 1) 3)).2.next_page_id =
      (allocSteps (mkBPM 2 4 1) 3).next_page_id + 4 :=
  allocatePage_interleaves 2 4 1 3 (by decide) (by decide)

/-- C7: if every frame is pinned, `NewPgImp` returns NONE and leaves the
page table and the free list exactly as they were. -/
theorem newPage_all_pinned_no_mutation (s : BPMState)
    (h : allPinned s.pages = true) :
    (NewPgImp s).1 = none ∧
    (NewPgImp s).2.page_table = s.page_table ∧
    (NewPgImp s).2.free_list = s.free_list := by
  simp [NewPgImp, AllocatePage, h]

/-- Witness for C7: one fully pinned frame. -/
theorem newPage_all_pinned_no_mutation_witness :
    (NewPgImp ⟨1, 0, 1, [⟨0, [], 1, false⟩], [(0, 0)], [], [], [], []⟩).1 =
        none ∧
    (NewPgImp ⟨1, 0, 1, [⟨0, [], 1, false⟩], [(0, 0)], [], [], [], []⟩).2.page_table =
        (⟨1, 0, 1, [⟨0, [], 1, false⟩], [(0, 0)], [], [], [], []⟩ : BPMState).page_table ∧
    (NewPgImp ⟨1, 0, 1, [⟨0, [], 1, false⟩], [(0, 0)], [], [], [], []⟩).2.free_list =
        (⟨1, 0, 1, [⟨0, [], 1, false⟩], [(0, 0)], [], [], [], []⟩ : BPMState).free_list :=
  newPage_all_pinned_no_mutation _ (by decide)

/-- C9: even when `NewPgImp` fails because every frame is pinned, the page
id allocator has advanced: `next_page_id` grows by `num_instances`, so
the failed call consumes a page id. -/
theorem newPage_failure_consumes_page_id (s : BPMState)
    (h : allPinned s.pages = true) :
    (NewPgImp s).1 = none ∧
    (NewPgImp s).2.next_page_id = s.next_page_id + s.num_instances := by
  simp [NewPgImp, AllocatePage, h]

/-- Witness for C9: one fully pinned frame, allocator at 5 advancing by 2. -/
theorem newPage_failure_consumes_page_id_witness :
    (NewPgImp ⟨2, 1, 5, [⟨3, [], 2, false⟩], [(3, 0)], [], [], [], []⟩).1 =
        none ∧
    (NewPgImp ⟨2, 1, 5, [⟨3, [], 2, false⟩], [(3, 0)], [], [], [], []⟩).2.next_page_id =
        (⟨2, 1, 5, [⟨3, [], 2, false⟩], [(3, 0)], [], [], [], []⟩ : BPMState).next_page_id +
          (⟨2, 1, 5, [⟨3, [], 2, false⟩], [(3, 0)], [], [], [], []⟩ : BPMState).num_instances :=
  newPage_failure_consumes_page_id _ (by decide)

/-- A concrete pool state for exercising `UnpinPgImp`: one clean resident
page 5 in frame 0 with pin count already 0. -/
def cexUnpinState : BPMState :=
  ⟨1, 0, 1, [⟨5, [9], 0, false⟩], [(5, 0)], [], [0], [], []⟩

/-- Counterexample to C3 as stated: `UnpinPage(5, true)` on a resident
page whose pin count is already 0 does return `false`, but the frame is
*not* left unchanged — the C++ sets the dirty bit before the
`pin_count == 0` early return, so the previously clean frame comes out
dirty. -/
theorem unpin_zero_pin_counterexample :
    lookupPT cexUnpinState.page_table 5 = some 0 ∧
    (cexUnpinState.pages.getD 0 default).pin_count = 0 ∧
    (cexUnpinState.pages.getD 0 default).is_dirty = false ∧
    (UnpinPgImp cexUnpinState 5 true).1 = false ∧
    ((UnpinPgImp cexUnpinState 5 true).2.pages.getD 0 default).is_dirty = true ∧
    (UnpinPgImp cexUnpinState 5 true).2 ≠ cexUnpinState := by
  decide

/-- C3 amended: `UnpinPage(page_id, is_dirty)` on a resident page whose
pin count is already 0 returns `false`, but the dirty-bit step happens
*first*: the frame's dirty bit becomes `old ∨ is_dirty` (so a `true`
argument marks the frame dirty even though the call fails); the pin
count, the page table, the free list and the replacer are unchanged. -/
theorem unpin_zero_pin_returns_false (s : BPMState) (pid : Int) (d : Bool)
    (fid : Nat) (hl : lookupPT s.page_table pid = some fid)
    (hp : (s.pages.getD fid default).pin_count = 0) :
    (UnpinPgImp s pid d).1 = false ∧
    (UnpinPgImp s pid d).2.pages =
      s.pages.set fid
        { s.pages.getD fid default with
            is_dirty := (s.pages.getD fid default).is_dirty || d } ∧
    (UnpinPgImp s pid d).2.page_table = s.page_table ∧
    (UnpinPgImp s pid d).2.free_list = s.free_list ∧
    (UnpinPgImp s pid d).2.replacer = s.replacer := by
  have hp' : (s.pages[fid]?.getD default).pin_count = 0 := by
    simpa [List.getD] using hp
  cases d
  · simp [UnpinPgImp, hl, List.getD, hp']
    rw [← hp']
  · simp [UnpinPgImp, hl, List.getD, hp']

/-- Witness for the amended C3 on a concrete state. -/
theorem unpin_zero_pin_returns_false_witness :
    lookupPT (⟨1, 0, 1, [⟨7, [], 0, true⟩], [(7, 0)], [], [0], [], []⟩ :
        BPMState).page_table 7 = some 0 ∧
    ((⟨1, 0, 1, [⟨7, [], 0, true⟩], [(7, 0)], [], [0], [], []⟩ :
        BPMState).pages.getD 0 default).pin_count = 0 ∧
    (UnpinPgImp ⟨1, 0, 1, [⟨7, [], 0, true⟩], [(7, 0)], [], [0], [], []⟩
        7 false).1 = false :=
  ⟨by decide, by decide,
   (unpin_zero_pin_returns_false _ 7 false 0 (by decide) (by decide)).1⟩

theorem find_replace_frame (s : BPMState) (fid : Nat) (s' : BPMState)
    (h : find_replace s = (some fid, s')) :
    (fid ∈ s.free_list ∨ fid ∈ s.replacer) ∧
    s'.pages.length = s.pages.length ∧
    (s'.pages.getD fid default).data = (s.pages.getD fid default).data ∧
    ((s'.pages.getD fid default).pin_count =
        (s.pages.getD fid default).pin_count ∨
      (s'.pages.getD fid default).pin_count = 0) := by
  cases hfl : s.free_list with
  | cons f rest =>
    rw [find_replace, hfl] at h
    simp only [Prod.mk.injEq, Option.some.injEq] at h
    obtain ⟨rfl, rfl⟩ := h
    exact ⟨Or.inl (by simp [hfl]), rfl, rfl, Or.inl rfl⟩
  | nil =>
    cases hrep : s.replacer with
    | nil =>
      rw [find_replace, hfl, hrep] at h
      simp [replVictim] at h
    | cons v r =>
      rw [find_replace, hfl, hrep] at h
      simp only [replVictim, List.head?] at h
      cases hfp : findPidOfFrame s.page_table v with
      | none =>
        rw [hfp] at h
        simp only [Prod.mk.injEq, Option.some.injEq] at h
        obtain ⟨rfl, rfl⟩ := h
        exact ⟨Or.inr (by simp [hrep]), rfl, rfl, Or.inl rfl⟩
      | some rp =>
        rw [hfp] at h
        by_cases hd : (s.pages.getD v default).is_dirty
        · simp only [hd, if_true, Prod.mk.injEq, Option.some.injEq] at h
          obtain ⟨rfl, rfl⟩ := h
          refine ⟨Or.inr (by simp [hrep]), by simp, ?_, ?_⟩
          · by_cases hlt : v < s.pages.length
            · rw [getD_set_self _ _ _ hlt]
            · rw [List.set_eq_of_length_le (Nat.le_of_not_lt hlt)]
          · by_cases hlt : v < s.pages.length
            · rw [getD_set_self _ _ _ hlt]
              exact Or.inr rfl
            · rw [List.set_eq_of_length_le (Nat.le_of_not_lt hlt)]
              exact Or.inl rfl
        · simp only [hd, if_false, Prod.mk.injEq, Option.some.injEq] at h
          obtain ⟨rfl, rfl⟩ := h
          exact ⟨Or.inr (by simp [hrep]), rfl, rfl, Or.inl rfl⟩

/-- A concrete pool state for `NewPgImp`: one free frame whose stale data
buffer is `[7]` (as left behind by a previous resident page). -/
def cexNewState : BPMState :=
  ⟨1, 0, 0, [⟨-1, [7], 0, false⟩], [], [0], [], [], []⟩

/-- Counterexample to C2 as stated: `NewPgImp` succeeds and returns frame
0 for the fresh page id 0, but the frame's data buffer still holds the
stale byte `7` — the code never zeroes the buffer. -/
theorem newPage_data_not_zeroed_counterexample :
    (NewPgImp cexNewState).1 = some (0, 0) ∧
    ((NewPgImp cexNewState).2.pages.getD 0 default).data = [7] ∧
    ¬ (∀ b ∈ ((NewPgImp cexNewState).2.pages.getD 0 default).data, b = 0) := by
  decide

/-- C2 amended: when `NewPgImp` returns a frame — under the spec's state
invariant that frames on the free list or in the replacer are unpinned
(pin count 0) — the frame's `page_id` is the freshly allocated id, its
`pin_count` is 1, its dirty bit is cleared, the page table maps the new
id to the frame — but the data buffer is *left unchanged*, not zeroed. -/
theorem newPage_initializes_frame (s : BPMState) (pid : Int) (fid : Nat)
    (hf : ∀ f ∈ s.free_list,
      f < s.pages.length ∧ (s.pages.getD f default).pin_count = 0)
    (hr2 : ∀ f ∈ s.replacer,
      f < s.pages.length ∧ (s.pages.getD f default).pin_count = 0)
    (h : (NewPgImp s).1 = some (pid, fid)) :
    pid = s.next_page_id ∧
    ((NewPgImp s).2.pages.getD fid default).page_id = s.next_page_id ∧
    ((NewPgImp s).2.pages.getD fid default).pin_count = 1 ∧
    ((NewPgImp s).2.pages.getD fid default).is_dirty = false ∧
    ((NewPgImp s).2.pages.getD fid default).data =
      (s.pages.getD fid default).data ∧
    lookupPT (NewPgImp s).2.page_table pid = some fid := by
  have hs0 : (AllocatePage s).2 =
      { s with next_page_id := s.next_page_id + (s.num_instances : Int) } := rfl
  rcases hfr : find_replace
      { s with next_page_id := s.next_page_id + (s.num_instances : Int) }
    with ⟨ofid, s1⟩
  cases hap : allPinned s.pages with
  | true =>
    rw [NewPgImp, hs0] at h
    simp only [BPMState.pages] at h ⊢
    rw [hap] at h
    simp at h
  | false =>
    cases ofid with
    | none =>
      rw [NewPgImp, hs0] at h
      simp only [BPMState.pages] at h
      rw [hap] at h
      simp only [Bool.false_eq_true, if_false, hfr] at h
      simp at h
    | some vfid =>
      rw [NewPgImp, hs0] at h ⊢
      simp only [AllocatePage, BPMState.pages] at h ⊢
      rw [hap] at h ⊢
      simp only [Bool.false_eq_true, if_false, hfr, Option.some.injEq,
        Prod.mk.injEq] at h ⊢
      obtain ⟨rfl, rfl⟩ := h
      have hframe := find_replace_frame _ _ _ hfr
      have hmem : vfid ∈ s.free_list ∨ vfid ∈ s.replacer := hframe.1
      have hlt : vfid < s.pages.length ∧
          (s.pages.getD vfid default).pin_count = 0 := by
        rcases hmem with hm | hm
        · exact hf vfid hm
        · exact hr2 vfid hm
      have hlen : s1.pages.length = s.pages.length := hframe.2.1
      have hdata : (s1.pages.getD vfid default).data =
          (s.pages.getD vfid default).data := hframe.2.2.1
      have hpin : (s1.pages.getD vfid default).pin_count = 0 := by
        rcases hframe.2.2.2 with hp | hp
        · rw [hp]; exact hlt.2
        · exact hp
      have hlt1 : vfid < s1.pages.length := by rw [hlen]; exact hlt.1
      have hset := getD_set_self s1.pages vfid
        { s1.pages.getD vfid default with
            page_id := s.next_page_id,
            pin_count := (s1.pages.getD vfid default).pin_count + 1,
            is_dirty := false } hlt1
      simp only [List.getD] at hset hdata hpin ⊢
      rw [hset]
      exact ⟨trivial, rfl, by rw [hpin], rfl, hdata, lookupPT_insertPT _ _ _⟩

/-- Witness for the amended C2 on a concrete one-frame pool. -/
theorem newPage_initializes_frame_witness :
    (NewPgImp ⟨2, 1, 9, [⟨-1, [4, 5], 0, false⟩], [], [0], [], [], []⟩).1 =
        some (9, 0) ∧
    (((NewPgImp ⟨2, 1, 9, [⟨-1, [4, 5], 0, false⟩], [], [0], [], [],
        []⟩).2.pages.getD 0 default).pin_count = 1 ∧
      ((NewPgImp ⟨2, 1, 9, [⟨-1, [4, 5], 0, false⟩], [], [0], [], [],
        []⟩).2.pages.getD 0 default).data =
        ((⟨2, 1, 9, [⟨-1, [4, 5], 0, false⟩], [], [0], [], [], []⟩ :
          BPMState).pages.getD 0 default).data) :=
  ⟨by decide,
   (newPage_initializes_frame
      ⟨2, 1, 9, [⟨-1, [4, 5], 0, false⟩], [], [0], [], [], []⟩ 9 0
      (by decide) (by decide) (by decide)).2.2.1,
   (newPage_initializes_frame
      ⟨2, 1, 9, [⟨-1, [4, 5], 0, false⟩], [], [0], [], [], []⟩ 9 0
      (by decide) (by decide) (by decide)).2.2.2.2.1⟩

theorem find_replace_free (s : BPMState) (fid : Nat) (rest : List Nat)
    (h : s.free_list = fid :: rest) :
    find_replace s = (some fid, { s with free_list := rest }) := by
  rw [find_replace, h]

theorem find_replace_victim (s : BPMState) (fid : Nat) (r' : List Nat)
    (h1 : s.free_list = []) (h2 : s.replacer = fid :: r') :
    (find_replace s).1 = some fid ∧
    (findPidOfFrame s.page_table fid ≠ none →
      ((s.pages.getD fid default).is_dirty = true →
        ((s.pages.getD fid default).page_id,
          (s.pages.getD fid default).data) ∈
            (find_replace s).2.disk_writes) ∧
      lookupPT (find_replace s).2.page_table
        (s.pages.getD fid default).page_id = none) := by
  rw [find_replace, h1, h2]
  simp only [replVictim, List.head?]
  cases hfp : findPidOfFrame s.page_table fid with
  | none =>
    refine ⟨rfl, ?_⟩
    intro hne
    exact absurd rfl hne
  | some rp =>
    by_cases hd : (s.pages.getD fid default).is_dirty
    · simp only [hd, if_true]
      refine ⟨by trivial, fun _ => ⟨fun _ => List.mem_cons_self _ _, ?_⟩⟩
      exact lookupPT_erasePT _ _
    · simp only [hd, if_false]
      refine ⟨by trivial, fun _ => ⟨fun hcon => by simp at hcon, ?_⟩⟩
      exact lookupPT_erasePT _ _

theorem find_replace_none_iff (s : BPMState) :
    (find_replace s).1 = none ↔ s.free_list = [] ∧ s.replacer = [] := by
  constructor
  · intro h
    cases hfl : s.free_list with
    | cons f rest =>
      rw [find_replace_free s f rest hfl] at h
      exact absurd h (by simp)
    | nil =>
      cases hrep : s.replacer with
      | nil => exact ⟨rfl, rfl⟩
      | cons v r =>
        rw [(find_replace_victim s v r hfl hrep).1] at h
        exact absurd h (by simp)
  · rintro ⟨h1, h2⟩
    rw [find_replace, h1, h2]
    rfl

/-- C4: `find_replace` takes the head of the free list when non-empty;
otherwise it takes the replacer's victim, and when the victim frame holds
a resident dirty page the page's bytes are flushed to disk and the page
table entry for that page is erased; it fails exactly when both the free
list and the replacer are empty. -/
theorem find_replace_spec (s : BPMState) :
    (∀ fid rest, s.free_list = fid :: rest →
        find_replace s = (some fid, { s with free_list := rest })) ∧
    (∀ fid r', s.free_list = [] → s.replacer = fid :: r' →
        (find_replace s).1 = some fid ∧
        (findPidOfFrame s.page_table fid ≠ none →
          ((s.pages.getD fid default).is_dirty = true →
            ((s.pages.getD fid default).page_id,
              (s.pages.getD fid default).data) ∈
                (find_replace s).2.disk_writes) ∧
          lookupPT (find_replace s).2.page_table
            (s.pages.getD fid default).page_id = none)) ∧
    ((find_replace s).1 = none ↔ s.free_list = [] ∧ s.replacer = []) :=
  ⟨fun fid rest h => find_replace_free s fid rest h,
   fun fid r' h1 h2 => find_replace_victim s fid r' h1 h2,
   find_replace_none_iff s⟩

/-- A concrete state for the `find_replace` witness: empty free list, a
dirty resident page 3 in the replacer's only frame 0. -/
def wFindReplace : BPMState :=
  ⟨1, 0, 4, [⟨3, [8], 0, true⟩], [(3, 0)], [], [0], [], []⟩

/-- Witness for C4: on `wFindReplace` the victim is frame 0, page 3's
bytes reach the disk-write log, and the page-table entry is gone. -/
theorem find_replace_spec_witness :
    (find_replace wFindReplace).1 = some 0 ∧
    ((wFindReplace.pages.getD 0 default).page_id,
      (wFindReplace.pages.getD 0 default).data) ∈
        (find_replace wFindReplace).2.disk_writes ∧
    lookupPT (find_replace wFindReplace).2.page_table
      (wFindReplace.pages.getD 0 default).page_id = none :=
  ⟨((find_replace_spec wFindReplace).2.1 0 [] rfl rfl).1,
   ((((find_replace_spec wFindReplace).2.1 0 [] rfl rfl).2
      (by decide)).1 (by decide)),
   (((find_replace_spec wFindReplace).2.1 0 [] rfl rfl).2 (by decide)).2⟩

/-- C5: `DeletePgImp` returns `true` for a non-resident page (no change);
returns `false` and changes nothing for a resident pinned page; otherwise
it flushes the page when dirty, deallocates the page id at the disk
layer, erases the mapping, resets the frame to
`(INVALID_PAGE_ID, pin_count 0, clean)`, appends the frame to the free
list and returns `true`. -/
theorem deletePg_spec (s : BPMState) (pid : Int) :
    (lookupPT s.page_table pid = none → DeletePgImp s pid = (true, s)) ∧
    (∀ fid, lookupPT s.page_table pid = some fid →
      0 < (s.pages.getD fid default).pin_count →
      DeletePgImp s pid = (false, s)) ∧
    (∀ fid, lookupPT s.page_table pid = some fid →
      (s.pages.getD fid default).pin_count = 0 →
      (DeletePgImp s pid).1 = true ∧
      ((s.pages.getD fid default).is_dirty = true →
        (pid, (s.pages.getD fid default).data) ∈
          (DeletePgImp s pid).2.disk_writes) ∧
      pid ∈ (DeletePgImp s pid).2.deallocated ∧
      lookupPT (DeletePgImp s pid).2.page_table pid = none ∧
      (DeletePgImp s pid).2.pages =
        s.pages.set fid
          ⟨INVALID_PAGE_ID, (s.pages.getD fid default).data, 0, false⟩ ∧
      (DeletePgImp s pid).2.free_list = s.free_list ++ [fid]) := by
  refine ⟨?_, ?_, ?_⟩
  · intro h
    rw [DeletePgImp, h]
  · intro fid hl hp
    rw [DeletePgImp, hl]
    simp only [hp, if_pos]
  · intro fid hl hp
    rw [DeletePgImp, hl]
    have hnp : ¬ (0 < (s.pages.getD fid default).pin_count) := by omega
    simp only [if_neg hnp]
    by_cases hd : (s.pages.getD fid default).is_dirty
    · simp only [hd, if_true]
      exact ⟨by trivial, fun _ => List.mem_cons_self _ _,
        List.mem_cons_self _ _, lookupPT_erasePT _ _, by trivial, by trivial⟩
    · simp only [hd, if_false]
      exact ⟨by trivial, fun hcon => by simp at hcon,
        List.mem_cons_self _ _, lookupPT_erasePT _ _, by trivial, by trivial⟩

/-- A concrete state for the `DeletePgImp` witness: a clean resident page
6 in frame 0 with pin count 0. -/
def wDelete : BPMState :=
  ⟨1, 0, 7, [⟨6, [2], 0, false⟩], [(6, 0)], [], [0], [], []⟩

/-- Witness for C5: deleting unpinned resident page 6 succeeds, the id is
deallocated, the mapping is gone and frame 0 returns to the free list. -/
theorem deletePg_spec_witness :
    (DeletePgImp wDelete 6).1 = true ∧
    (6 : Int) ∈ (DeletePgImp wDelete 6).2.deallocated ∧
    lookupPT (DeletePgImp wDelete 6).2.page_table 6 = none ∧
    (DeletePgImp wDelete 6).2.free_list = wDelete.free_list ++ [0] :=
  ⟨((deletePg_spec wDelete 6).2.2 0 (by decide) (by decide)).1,
   ((deletePg_spec wDelete 6).2.2 0 (by decide) (by decide)).2.2.1,
   ((deletePg_spec wDelete 6).2.2 0 (by decide) (by decide)).2.2.2.1,
   ((deletePg_spec wDelete 6).2.2 0 (by decide) (by decide)).2.2.2.2.2⟩

/-! ## Executors (update_executor.cpp, insert_executor.cpp) -/

/-- The record-lock state of one transaction: the RIDs it holds SHARED
and the RIDs it holds EXCLUSIVE (spec §3, `shared_lock_set` /
`exclusive_lock_set`).  RIDs are modelled as naturals. -/
structure Txn where
  shared_rids : List Nat
  exclusive_rids : List Nat
deriving DecidableEq, Repr

/-- Embedding of `Transaction::IsSharedLocked`: membership in the shared lock set. -/
def isSharedLocked (t : Txn) (rid : Nat) : Bool := decide (rid ∈ t.shared_rids)

/-- Embedding of `Transaction::IsExclusiveLocked`: membership in the exclusive lock
set. -/
def isExclusiveLocked (t : Txn) (rid : Nat) : Bool :=
  decide (rid ∈ t.exclusive_rids)

/-- Modelled from the spec: the effect of `LockManager::LockUpgrade` on
the caller's lock sets (lock_manager.cpp is not among the sources; spec
§4.4: on grant, move rid from shared_lock_set to exclusive_lock_set; on
failure the transaction acquires nothing). -/
def lockUpgradeEff (t : Txn) (rid : Nat) (ok : Bool) : Txn :=
  if ok then
    { shared_rids := t.shared_rids.filter (fun r => r ≠ rid),
      exclusive_rids := rid :: t.exclusive_rids }
  else t

/-- Modelled from the spec: the effect of `LockManager::LockExclusive` on
the caller's lock sets (spec §4.4: on grant, add rid to
exclusive_lock_set; on failure nothing is acquired). -/
def lockExclusiveEff (t : Txn) (rid : Nat) (ok : Bool) : Txn :=
  if ok then { t with exclusive_rids := rid :: t.exclusive_rids } else t

/-- Observable outcome of one `UpdateExecutor::Next` call: the returned
boolean, which lock-manager calls were made, whether `UpdateTuple` was
invoked, and the transaction's lock state at that point. -/
structure UpdateNextResult where
  ret : Bool
  calledUpgrade : Bool
  calledExclusive : Bool
  updateInvoked : Bool
  txnAtUpdate : Txn
deriving DecidableEq, Repr

/-- Shallow embedding of `UpdateExecutor::Next` (update_executor.cpp,
lines 30-75).  `childOk` models the child executor yielding a tuple,
`fetched` the `GetTuple` result, `upgradeOk`/`exclusiveOk` the boolean
results of `LockUpgrade`/`LockExclusive`, and `updateOk` the result of
`UpdateTuple`.  The C++: if the transaction holds SHARED on the RID it
calls `LockUpgrade` (failure returns false); otherwise, unless EXCLUSIVE
is already held, it calls `LockExclusive` (failure returns false); only
then is `UpdateTuple` invoked. -/
def updateNext (childOk fetched : Bool) (txn : Txn) (rid : Nat)
    (upgradeOk exclusiveOk updateOk : Bool) : UpdateNextResult :=
  if !childOk then ⟨false, false, false, false, txn⟩
  else if !fetched then ⟨false, false, false, false, txn⟩
  else if isSharedLocked txn rid then
    let txn1 := lockUpgradeEff txn rid upgradeOk
    if !upgradeOk then ⟨false, true, false, false, txn1⟩
    else ⟨updateOk, true, false, true, txn1⟩
  else if !(isExclusiveLocked txn rid) then
    let txn1 := lockExclusiveEff txn rid exclusiveOk
    if !exclusiveOk then ⟨false, false, true, false, txn1⟩
    else ⟨updateOk, false, true, true, txn1⟩
  else ⟨updateOk, false, false, true, txn⟩

/-- C8: whenever `UpdateExecutor::Next` reaches `UpdateTuple`, the
transaction holds an EXCLUSIVE lock on the RID; on the SHARED-held path
`LockUpgrade` is the call made; on the unlocked path `LockExclusive` is;
and a `false` result from the lock call makes `Next` return `false`
without invoking the update. -/
theorem updateNext_locks_before_update
    (childOk fetched : Bool) (txn : Txn) (rid : Nat)
    (upgradeOk exclusiveOk updateOk : Bool)
    (hchild : childOk = true) (hfetch : fetched = true) :
    ((updateNext childOk fetched txn rid upgradeOk exclusiveOk
        updateOk).updateInvoked = true →
      isExclusiveLocked
        (updateNext childOk fetched txn rid upgradeOk exclusiveOk
          updateOk).txnAtUpdate rid = true) ∧
    (isSharedLocked txn rid = true →
      (updateNext childOk fetched txn rid upgradeOk exclusiveOk
        updateOk).calledUpgrade = true ∧
      (upgradeOk = false →
        (updateNext childOk fetched txn rid upgradeOk exclusiveOk
          updateOk).ret = false ∧
        (updateNext childOk fetched txn rid upgradeOk exclusiveOk
          updateOk).updateInvoked = false)) ∧
    (isSharedLocked txn rid = false → isExclusiveLocked txn rid = false →
      (updateNext childOk fetched txn rid upgradeOk exclusiveOk
        updateOk).calledExclusive = true ∧
      (exclusiveOk = false →
        (updateNext childOk fetched txn rid upgradeOk exclusiveOk
          updateOk).ret = false ∧
        (updateNext childOk fetched txn rid upgradeOk exclusiveOk
          updateOk).updateInvoked = false)) := by
  subst hchild hfetch
  by_cases hs : isSharedLocked txn rid <;>
    by_cases he : isExclusiveLocked txn rid <;>
      cases upgradeOk <;> cases exclusiveOk <;>
        simp_all [updateNext, lockUpgradeEff, lockExclusiveEff,
          isExclusiveLocked]

/-- Witness for C8: a transaction holding SHARED on RID 4 whose upgrade
succeeds. -/
theorem updateNext_locks_before_update_witness :
    (updateNext true true ⟨[4], []⟩ 4 true true true).updateInvoked = true ∧
    isExclusiveLocked
      (updateNext true true ⟨[4], []⟩ 4 true true true).txnAtUpdate 4 =
        true ∧
    (updateNext true true ⟨[4], []⟩ 4 true true true).calledUpgrade = true :=
  ⟨by decide,
   (updateNext_locks_before_update true true ⟨[4], []⟩ 4 true true true
      rfl rfl).1 (by decide),
   ((updateNext_locks_before_update true true ⟨[4], []⟩ 4 true true true
      rfl rfl).2.1 (by decide)).1⟩

/-- Observable outcome of one `InsertExecutor::Next` call: the returned
boolean, whether `LockExclusive` was requested, the index entries
inserted (one `(index, rid)` pair per table index), the records appended
to the transaction's index write set, and the transaction's lock state
afterwards. -/
structure InsertNextResult where
  ret : Bool
  lockRequested : Bool
  indexInserts : List (Nat × Nat)
  indexWriteAppends : List (Nat × Nat)
  txnAfter : Txn
deriving DecidableEq, Repr

/-- The tail of `InsertExecutor::Next` after the tuple is obtained
(insert_executor.cpp, lines 49-67): `InsertTuple`, then — on success — a
`LockExclusive` call whose boolean result is discarded, index
maintenance for every table index, and the append to the index write
set. -/
def insertNextGo (inserted : Bool) (rid : Nat) (table_indexes : List Nat)
    (txn : Txn) (lockOk : Bool) : InsertNextResult :=
  if inserted then
    ⟨true, true, table_indexes.map (fun i => (i, rid)),
      table_indexes.map (fun i => (i, rid)),
      lockExclusiveEff txn rid lockOk⟩
  else ⟨false, false, [], [], txn⟩

/-- Shallow embedding of `InsertExecutor::Next` (insert_executor.cpp,
lines 33-68): raw inserts draw from the plan's value list via the
`next_insert` cursor; otherwise the child executor supplies the tuple;
then `insertNextGo`. -/
def insertNext (rawInsert : Bool) (next_insert rawCount : Nat)
    (childOk inserted : Bool) (rid : Nat) (table_indexes : List Nat)
    (txn : Txn) (lockOk : Bool) : InsertNextResult :=
  if rawInsert then
    if rawCount ≤ next_insert then ⟨false, false, [], [], txn⟩
    else insertNextGo inserted rid table_indexes txn lockOk
  else if !childOk then ⟨false, false, [], [], txn⟩
  else insertNextGo inserted rid table_indexes txn lockOk

/-- C10: `InsertExecutor::Next` discards the result of `LockExclusive`:
whatever the lock call returns, the returned boolean, the index
maintenance and the index-write-set append are identical to the run where
the lock was granted; and on every successful return the lock was
requested. -/
theorem insertNext_discards_lock_result (rawInsert : Bool)
    (next_insert rawCount : Nat) (childOk inserted : Bool) (rid : Nat)
    (table_indexes : List Nat) (txn : Txn) (lockOk : Bool) :
    (insertNext rawInsert next_insert rawCount childOk inserted rid
        table_indexes txn lockOk).ret =
      (insertNext rawInsert next_insert rawCount childOk inserted rid
        table_indexes txn true).ret ∧
    (insertNext rawInsert next_insert rawCount childOk inserted rid
        table_indexes txn lockOk).indexInserts =
      (insertNext rawInsert next_insert rawCount childOk inserted rid
        table_indexes txn true).indexInserts ∧
    (insertNext rawInsert next_insert rawCount childOk inserted rid
        table_indexes txn lockOk).indexWriteAppends =
      (insertNext rawInsert next_insert rawCount childOk inserted rid
        table_indexes txn true).indexWriteAppends ∧
    ((insertNext rawInsert next_insert rawCount childOk inserted rid
        table_indexes txn lockOk).ret = true →
      (insertNext rawInsert next_insert rawCount childOk inserted rid
        table_indexes txn lockOk).lockRequested = true) := by
  cases rawInsert <;> cases childOk <;> cases inserted <;>
    by_cases hle : rawCount ≤ next_insert <;>
      simp [insertNext, insertNextGo, hle]

/-- Witness for C10: a raw insert of the first of two values whose lock
call is denied still returns `true` with the index maintained. -/
theorem insertNext_discards_lock_result_witness :
    (insertNext true 0 2 true true 3 [11] ⟨[], []⟩ false).ret =
      (insertNext true 0 2 true true 3 [11] ⟨[], []⟩ true).ret ∧
    (insertNext true 0 2 true true 3 [11] ⟨[], []⟩ false).indexInserts =
      (insertNext true 0 2 true true 3 [11] ⟨[], []⟩ true).indexInserts ∧
    (insertNext true 0 2 true true 3 [11] ⟨[], []⟩ false).lockRequested =
      true :=
  ⟨(insertNext_discards_lock_result true 0 2 true true 3 [11] ⟨[], []⟩
      false).1,
   (insertNext_discards_lock_result true 0 2 true true 3 [11] ⟨[], []⟩
      false).2.1,
   (insertNext_discards_lock_result true 0 2 true true 3 [11] ⟨[], []⟩
      false).2.2.2 (by decide)⟩

end BusTub
